import Mathlib

/-!
Shallow embedding of the edit-compile-run core of the Simplicity web IDE
(`src/components/program_window/program_tab.rs` and `src/jet.rs`).

Source text is modelled as its character sequence (`List Char`); Rust
`Result<T, E>` is modelled as `Except E T`.  The external simplicityhl
compiler library, the `Runner` interpreter and the bit machine are external
collaborators: they are modelled as abstract structures of functions, and
all theorems are proved for every instantiation of those structures.
-/

namespace SimplicityWebide

/-- Raw editable source text, modelled as its character sequence. -/
abbrev SourceText := List Char

/-- Abstract model of the external simplicityhl compiler library, as used by
`Program::update_on_read`:
* `arguments_parse_from_str` models `simplicityhl::Arguments::parse_from_str`
  (its error is turned into a string by `error.to_string()`);
* `compiledProgram_new` models `CompiledProgram::new(text, args, debug_symbols)`,
  which already reports errors as strings;
* `commit` and `cmr` model `CompiledProgram::commit` and `.cmr()`;
* `witnessValues_parse_from_str` models `WitnessValues::parse_from_str`
  (its error is converted to a string by the `?` operator);
* `satisfy` models `CompiledProgram::satisfy`, reporting errors as strings. -/
structure Pipeline where
  Args : Type
  ArgsErr : Type
  Compiled : Type
  Committed : Type
  Cmr : Type
  WitErr : Type
  Witness : Type
  Satisfied : Type
  arguments_parse_from_str : SourceText → Except ArgsErr Args
  argsErr_to_string : ArgsErr → String
  compiledProgram_new : SourceText → Args → Bool → Except String Compiled
  commit : Compiled → Committed
  cmr : Committed → Cmr
  witnessValues_parse_from_str : SourceText → Except WitErr Witness
  witErr_to_string : WitErr → String
  satisfy : Compiled → Witness → Except String Satisfied

/-- The state of `Program` (struct `Program` in `program_tab.rs`): the four
reactive signals `text`, `cached_text`, `lazy_cmr`, `lazy_satisfied`. -/
structure ProgramState (Cmr Satisfied : Type) where
  text : SourceText
  cached_text : SourceText
  lazy_cmr : Except String Cmr
  lazy_satisfied : Except String Satisfied

/-- The staleness test of `Program::update_on_read`:
`self.text.with_untracked(|text| self.cached_text.with_untracked(|cached_text| text != cached_text))`. -/
def needs_update {C S : Type} (s : ProgramState C S) : Bool :=
  s.text != s.cached_text

/-- Number of pipeline recomputes a single `update_on_read` performs from
state `s`: one if the cache is stale, zero otherwise. -/
def recompute_count {C S : Type} (s : ProgramState C S) : Nat :=
  if needs_update s then 1 else 0

/-- `Program::update_on_read`: if `text` differs from `cached_text`, set
`cached_text` to `text`, run the compilation pipeline on `text` and store the
commitment and satisfaction results; otherwise return unchanged. -/
def update_on_read (P : Pipeline) (s : ProgramState P.Cmr P.Satisfied) :
    ProgramState P.Cmr P.Satisfied :=
  if needs_update s then
    let compiled : Except String P.Compiled :=
      (Except.mapError P.argsErr_to_string (P.arguments_parse_from_str s.text)).bind
        (fun args => P.compiledProgram_new s.text args false)
    let cmr : Except String P.Cmr :=
      Except.map (fun x => P.cmr (P.commit x)) compiled
    let satisfied : Except String P.Satisfied :=
      compiled.bind (fun x =>
        (Except.mapError P.witErr_to_string (P.witnessValues_parse_from_str s.text)).bind
          (fun witness => P.satisfy x witness))
    { s with cached_text := s.text, lazy_cmr := cmr, lazy_satisfied := satisfied }
  else s

/-- `Program::cmr`: refresh on read, then return the stored commitment
result.  The returned pair is (returned value, state after the call). -/
def Program.cmr (P : Pipeline) (s : ProgramState P.Cmr P.Satisfied) :
    Except String P.Cmr × ProgramState P.Cmr P.Satisfied :=
  let s2 := update_on_read P s
  (s2.lazy_cmr, s2)

/-- `Program::satisfied`: refresh on read, then return the stored
satisfaction result.  The returned pair is (returned value, state after). -/
def Program.satisfied (P : Pipeline) (s : ProgramState P.Cmr P.Satisfied) :
    Except String P.Satisfied × ProgramState P.Cmr P.Satisfied :=
  let s2 := update_on_read P s
  (s2.lazy_satisfied, s2)

/-- `Program::new`: initialise `cached_text` to the empty string and both
lazy slots to `Err(String::new())`, then call `update_on_read`. -/
def Program.new (P : Pipeline) (text : SourceText) : ProgramState P.Cmr P.Satisfied :=
  update_on_read P
    { text := text, cached_text := [],
      lazy_cmr := Except.error "", lazy_satisfied := Except.error "" }

/-- The text-edit handler `update_program_text`: `program.text.set(...)`.
It writes the `text` signal and nothing else. -/
def set_text {C S : Type} (s : ProgramState C S) (new_text : SourceText) :
    ProgramState C S :=
  { s with text := new_text }

/-- Stage 1-2 of the pipeline as run by `update_on_read`: parse arguments,
then compile (`let compiled = ...` in the source). -/
def compiledOf (P : Pipeline) (t : SourceText) : Except String P.Compiled :=
  (Except.mapError P.argsErr_to_string (P.arguments_parse_from_str t)).bind
    (fun args => P.compiledProgram_new t args false)

/-- The commitment result the pipeline computes for text `t`. -/
def pipeline_cmr (P : Pipeline) (t : SourceText) : Except String P.Cmr :=
  Except.map (fun x => P.cmr (P.commit x)) (compiledOf P t)

/-- The satisfaction result the pipeline computes for text `t`. -/
def pipeline_satisfied (P : Pipeline) (t : SourceText) : Except String P.Satisfied :=
  (compiledOf P t).bind (fun x =>
    (Except.mapError P.witErr_to_string (P.witnessValues_parse_from_str t)).bind
      (fun witness => P.satisfy x witness))

/-! ### `Program::add_default_modules` -/

/-- The header substring `"mod witness"` scanned for by `add_default_modules`. -/
def mod_witness_header : SourceText := "mod witness".toList

/-- The header substring `"mod param"` scanned for by `add_default_modules`. -/
def mod_param_header : SourceText := "mod param".toList

/-- The block `"mod witness \x7b\x7d\n\n"` inserted by `add_default_modules`. -/
def mod_witness_block : SourceText := "mod witness \x7b\x7d\n\n".toList

/-- The block `"mod param \x7b\x7d\n\n"` inserted by `add_default_modules`. -/
def mod_param_block : SourceText := "mod param \x7b\x7d\n\n".toList

/-- Rust `str::contains`: substring (infix) containment of character
sequences, as a boolean. -/
def contains_sub (needle hay : SourceText) : Bool :=
  decide (needle <:+: hay)

/-- The text transformation performed by `Program::add_default_modules`:
test both headers on the current text, then prepend (`insert_str(0, ...)`)
the param block if its header is absent, then the witness block if its
header is absent. -/
def add_default_modules_text (t : SourceText) : SourceText :=
  let contains_witness := contains_sub mod_witness_header t
  let contains_param := contains_sub mod_param_header t
  let t1 := if !contains_param then mod_param_block ++ t else t
  let t2 := if !contains_witness then mod_witness_block ++ t1 else t1
  t2

/-- `Program::add_default_modules` as a state operation: it writes only the
`text` signal. -/
def Program.add_default_modules {C S : Type} (s : ProgramState C S) :
    ProgramState C S :=
  { s with text := add_default_modules_text s.text }

/-! ### Read sequences and the recompute counter -/

/-- A read of the cache: a call to `Program::cmr` or `Program::satisfied`. -/
inductive ReadCall : Type
  | cmrCall : ReadCall
  | satisfiedCall : ReadCall
deriving DecidableEq

/-- The value a read call returns when the state it observes is `s`. -/
def read_result {C S : Type} (s : ProgramState C S) :
    ReadCall → Except String C ⊕ Except String S
  | ReadCall.cmrCall => Sum.inl s.lazy_cmr
  | ReadCall.satisfiedCall => Sum.inr s.lazy_satisfied

/-- Run a sequence of `cmr`/`satisfied` calls from state `s`, collecting the
returned results, the final state and the total number of pipeline
recomputes performed. -/
def run_reads (P : Pipeline) :
    List ReadCall → ProgramState P.Cmr P.Satisfied →
    List (Except String P.Cmr ⊕ Except String P.Satisfied) ×
      ProgramState P.Cmr P.Satisfied × Nat
  | [], s => ([], s, 0)
  | c :: cs, s =>
    let n := recompute_count s
    let step :=
      match c with
      | ReadCall.cmrCall =>
        let r := Program.cmr P s
        (Sum.inl r.1, r.2)
      | ReadCall.satisfiedCall =>
        let r := Program.satisfied P s
        (Sum.inr r.1, r.2)
    let rest := run_reads P cs step.2
    (step.1 :: rest.1, rest.2.1, n + rest.2.2)

/-! ### Reachable `Program` states -/

/-- The states of the `Program` cache reachable through its operations:
construction (`Program::new`), text replacement by the edit handler,
the two lazy reads, an explicit `update_on_read`, and
`add_default_modules`. -/
inductive Reachable (P : Pipeline) : ProgramState P.Cmr P.Satisfied → Prop
  | new (t : SourceText) : Reachable P (Program.new P t)
  | set_text {s : ProgramState P.Cmr P.Satisfied} (t : SourceText) :
      Reachable P s → Reachable P (set_text s t)
  | cmr {s : ProgramState P.Cmr P.Satisfied} :
      Reachable P s → Reachable P (Program.cmr P s).2
  | satisfied {s : ProgramState P.Cmr P.Satisfied} :
      Reachable P s → Reachable P (Program.satisfied P s).2
  | update {s : ProgramState P.Cmr P.Satisfied} :
      Reachable P s → Reachable P (update_on_read P s)
  | add_default_modules {s : ProgramState P.Cmr P.Satisfied} :
      Reachable P s → Reachable P (Program.add_default_modules s)

/-! ### `Runtime` and the execution runner -/

/-- The state of `Runtime` (struct `Runtime` in `program_tab.rs`): the
program it runs plus the signals `run_succeeded`, `debug_output` and
`error_output`.  The transaction environment signal is passed as a plain
argument to `Runtime.run`. -/
structure RuntimeState (Cmr Satisfied : Type) where
  program : ProgramState Cmr Satisfied
  run_succeeded : Option Bool
  debug_output : String
  error_output : String

/-- Abstract model of the external interpreter `crate::function::Runner`:
`runner_run sat env` is the pair of the outcome of
`Runner::for_program(&sat).run(env)` and the debug lines
`runner.debug_output()` collected during that run; `runErr_to_string`
models `error.to_string()` on the runner's error type. -/
structure RunnerModel (Satisfied Env : Type) where
  RunErr : Type
  runner_run : Satisfied → Env → Except RunErr PUnit × List String
  runErr_to_string : RunErr → String

/-- `Runtime::run`: clear `debug_output`; read `program.satisfied()`; on a
cached error, report it and signal failure; otherwise run the interpreter,
report its outcome, and overwrite `debug_output` with the joined debug
lines.  `set_success b` is modelled by `run_succeeded := some b`; its 500 ms
asynchronous reset and the vibration call are presentation-only side
effects outside the model. -/
def Runtime.run (P : Pipeline) {Env : Type} (R : RunnerModel P.Satisfied Env)
    (rt : RuntimeState P.Cmr P.Satisfied) (env : Env) :
    RuntimeState P.Cmr P.Satisfied :=
  let rt1 : RuntimeState P.Cmr P.Satisfied := { rt with debug_output := "" }
  match Program.satisfied P rt1.program with
  | (Except.error e, program2) =>
    { rt1 with program := program2, error_output := e, run_succeeded := some false }
  | (Except.ok x, program2) =>
    let rr := R.runner_run x env
    let success : Bool :=
      match rr.1 with
      | Except.ok _ => true
      | Except.error _ => false
    let error_out : String :=
      match rr.1 with
      | Except.ok _ => ""
      | Except.error e => R.runErr_to_string e
    { rt1 with program := program2, error_output := error_out,
               debug_output := String.intercalate "\n" rr.2,
               run_succeeded := some success }

/-! ### The opcode execution harness (`src/jet.rs`) -/

/-- Abstract model of the external `simplicity` crate as used by
`execute_jet_with_env`:
* `finalize_unpruned` models `Arc::<ConstructNode<J>>::jet(&ctx, jet).finalize_unpruned()`;
* `for_program` models `BitMachine::for_program(&prog)`;
* `machine_input` models `mac.input(input)` (returning the updated machine);
* `exec` models `mac.exec(&prog, env)`. -/
structure JetMachineModel where
  Jet : Type
  Value : Type
  Env : Type
  Prog : Type
  Machine : Type
  TypeErr : Type
  LimitErr : Type
  InputErr : Type
  ExecErr : Type
  finalize_unpruned : Jet → Except TypeErr Prog
  for_program : Prog → Except LimitErr Machine
  machine_input : Machine → Value → Except InputErr Machine
  exec : Machine → Prog → Env → Except ExecErr Value

/-- Outcome of `execute_jet_with_env`: a returned output value, the returned
`Err(JetFailed)`, or a process abort (a Rust panic raised by `expect`,
carrying the `expect` message). -/
inductive JetOutcome (V : Type) : Type
  | ok (value : V) : JetOutcome V
  | jetFailed : JetOutcome V
  | abort (msg : String) : JetOutcome V

/-- `execute_jet_with_env` from `src/jet.rs`: build the single-jet program
and finalize it (`expect` on failure), build the bit machine (`expect` on
failure), load the input (`expect` on failure), then execute; only an
execution error is returned, as `JetFailed`. -/
def execute_jet_with_env (M : JetMachineModel) (jet : M.Jet) (input : M.Value)
    (env : M.Env) : JetOutcome M.Value :=
  match M.finalize_unpruned jet with
  | Except.error _ => JetOutcome.abort "a single jet definitely typechecks"
  | Except.ok prog =>
    match M.for_program prog with
    | Except.error _ => JetOutcome.abort "a single jet is within limits"
    | Except.ok mac =>
      match M.machine_input mac input with
      | Except.error _ => JetOutcome.abort "no problem with input"
      | Except.ok mac2 =>
        match M.exec mac2 prog env with
        | Except.error _ => JetOutcome.jetFailed
        | Except.ok value => JetOutcome.ok value

/-! ### Concrete instantiations used to evaluate the theorems -/

/-- A concrete, executable pipeline instance: argument parsing fails on
empty text, compilation always succeeds (to the text length), witness
parsing fails on texts of length at most one, satisfaction succeeds. -/
abbrev toyPipeline : Pipeline where
  Args := Unit
  ArgsErr := Unit
  Compiled := Nat
  Committed := Nat
  Cmr := Nat
  WitErr := Unit
  Witness := Unit
  Satisfied := Nat
  arguments_parse_from_str := fun t => if t.isEmpty then Except.error () else Except.ok ()
  argsErr_to_string := fun _ => "argument parse error"
  compiledProgram_new := fun t _ _ => Except.ok t.length
  commit := fun n => n
  cmr := fun n => n + 1
  witnessValues_parse_from_str := fun t =>
    if t.length ≤ 1 then Except.error () else Except.ok ()
  witErr_to_string := fun _ => "witness parse error"
  satisfy := fun c _ => Except.ok c

/-- A fresh (text = cached snapshot) concrete program state. -/
abbrev toyFresh : ProgramState toyPipeline.Cmr toyPipeline.Satisfied :=
  { text := "abc".toList, cached_text := "abc".toList,
    lazy_cmr := Except.ok 4, lazy_satisfied := Except.ok 3 }

/-- A stale concrete program state whose text parses but whose witness
parsing fails (`"a"` has length one). -/
abbrev toyStaleWit : ProgramState toyPipeline.Cmr toyPipeline.Satisfied :=
  { text := "a".toList, cached_text := [],
    lazy_cmr := Except.error "", lazy_satisfied := Except.error "" }

/-- A fresh concrete program state whose cached satisfaction result is an
error. -/
abbrev toyFreshErr : ProgramState toyPipeline.Cmr toyPipeline.Satisfied :=
  { text := "a".toList, cached_text := "a".toList,
    lazy_cmr := Except.ok 2, lazy_satisfied := Except.error "witness parse error" }

/-- A concrete runner model over the unit environment: programs compiled to
`3` succeed with two debug lines, all others fail with one debug line. -/
abbrev toyRunner : RunnerModel toyPipeline.Satisfied Unit where
  RunErr := Unit
  runner_run := fun sat _ =>
    if sat = 3 then (Except.ok PUnit.unit, ["line one", "line two"])
    else (Except.error (), ["dbg"])
  runErr_to_string := fun _ => "runner failed"

/-- A second concrete runner model, distinct from `toyRunner`. -/
abbrev toyRunnerB : RunnerModel toyPipeline.Satisfied Unit where
  RunErr := Unit
  runner_run := fun _ _ => (Except.error (), ["other"])
  runErr_to_string := fun _ => "other runner failed"

/-- A concrete runtime state around `toyFresh`. -/
abbrev toyRuntime : RuntimeState toyPipeline.Cmr toyPipeline.Satisfied :=
  { program := toyFresh, run_succeeded := none,
    debug_output := "stale trace", error_output := "stale error" }

/-- A concrete runtime state around `toyFreshErr`. -/
abbrev toyRuntimeErr : RuntimeState toyPipeline.Cmr toyPipeline.Satisfied :=
  { program := toyFreshErr, run_succeeded := none,
    debug_output := "stale trace", error_output := "stale error" }

/-- A concrete, executable bit-machine model over natural numbers: the
single-jet program is the jet itself, the machine holds the loaded input,
and execution fails at runtime exactly when the input is smaller than the
jet number, and otherwise outputs their difference. -/
abbrev toyJetMachine : JetMachineModel where
  Jet := Nat
  Value := Nat
  Env := Unit
  Prog := Nat
  Machine := Nat
  TypeErr := Unit
  LimitErr := Unit
  InputErr := Unit
  ExecErr := Unit
  finalize_unpruned := fun jet => Except.ok jet
  for_program := fun _ => Except.ok 0
  machine_input := fun _ input => Except.ok input
  exec := fun mac prog _ =>
    if mac < prog then Except.error () else Except.ok (mac - prog)

/-- A bit-machine model whose finalization always fails, to exercise the
abort path of `execute_jet_with_env`. -/
abbrev toyJetMachineBroken : JetMachineModel where
  Jet := Nat
  Value := Nat
  Env := Unit
  Prog := Nat
  Machine := Nat
  TypeErr := Unit
  LimitErr := Unit
  InputErr := Unit
  ExecErr := Unit
  finalize_unpruned := fun _ => Except.error ()
  for_program := fun _ => Except.ok 0
  machine_input := fun _ input => Except.ok input
  exec := fun _ _ _ => Except.error ()

/-! ## Theorems -/

/-! ### Freshness and idempotence of `update_on_read` -/

theorem update_on_read_of_fresh (P : Pipeline) (s : ProgramState P.Cmr P.Satisfied)
    (h : needs_update s = false) : update_on_read P s = s := by
  simp [update_on_read, h]

theorem update_on_read_of_stale (P : Pipeline) (s : ProgramState P.Cmr P.Satisfied)
    (h : needs_update s = true) :
    update_on_read P s =
      { s with cached_text := s.text,
               lazy_cmr := pipeline_cmr P s.text,
               lazy_satisfied := pipeline_satisfied P s.text } := by
  simp [update_on_read, h, pipeline_cmr, pipeline_satisfied, compiledOf]

theorem needs_update_update_on_read (P : Pipeline) (s : ProgramState P.Cmr P.Satisfied) :
    needs_update (update_on_read P s) = false := by
  cases h : needs_update s with
  | false => rw [update_on_read_of_fresh P s h]; exact h
  | true => rw [update_on_read_of_stale P s h]; simp [needs_update]

theorem update_on_read_idem (P : Pipeline) (s : ProgramState P.Cmr P.Satisfied) :
    update_on_read P (update_on_read P s) = update_on_read P s :=
  update_on_read_of_fresh P _ (needs_update_update_on_read P s)

theorem needs_update_eq_false_of_eq {C S : Type} (s : ProgramState C S)
    (h : s.text = s.cached_text) : needs_update s = false := by
  simp [needs_update, h]

/-! ### Behaviour of read sequences -/

theorem run_reads_of_fresh (P : Pipeline) (cs : List ReadCall)
    (s : ProgramState P.Cmr P.Satisfied) (h : needs_update s = false) :
    run_reads P cs s = (cs.map (read_result s), s, 0) := by
  induction cs with
  | nil => rfl
  | cons c cs ih =>
    have hupd : update_on_read P s = s := update_on_read_of_fresh P s h
    cases c with
    | cmrCall =>
      simp [run_reads, recompute_count, h, Program.cmr, hupd, ih, read_result]
    | satisfiedCall =>
      simp [run_reads, recompute_count, h, Program.satisfied, hupd, ih, read_result]

theorem run_reads_results (P : Pipeline) (cs : List ReadCall)
    (s : ProgramState P.Cmr P.Satisfied) :
    (run_reads P cs s).1 = cs.map (read_result (update_on_read P s)) := by
  cases cs with
  | nil => rfl
  | cons c cs =>
    have hfresh := needs_update_update_on_read P s
    have hrest := run_reads_of_fresh P cs (update_on_read P s) hfresh
    cases c with
    | cmrCall => simp [run_reads, Program.cmr, hrest, read_result]
    | satisfiedCall => simp [run_reads, Program.satisfied, hrest, read_result]

theorem run_reads_count_le_one (P : Pipeline) (cs : List ReadCall)
    (s : ProgramState P.Cmr P.Satisfied) :
    (run_reads P cs s).2.2 ≤ 1 := by
  cases cs with
  | nil => simp [run_reads]
  | cons c cs =>
    have hfresh := needs_update_update_on_read P s
    have hrest := run_reads_of_fresh P cs (update_on_read P s) hfresh
    have hcount : recompute_count s ≤ 1 := by
      unfold recompute_count; split <;> simp
    cases c with
    | cmrCall => simp [run_reads, Program.cmr, hrest]; omega
    | satisfiedCall => simp [run_reads, Program.satisfied, hrest]; omega

/-! ### Substring containment helpers -/

theorem isInfix_append_of_left {α : Type} {l s : List α} (t : List α)
    (h : l <:+: s) : l <:+: s ++ t := by
  obtain ⟨u, v, rfl⟩ := h
  exact ⟨u, v ++ t, by simp⟩

theorem isInfix_append_of_right {α : Type} {l t : List α} (s : List α)
    (h : l <:+: t) : l <:+: s ++ t := by
  obtain ⟨u, v, rfl⟩ := h
  exact ⟨s ++ u, v, by simp⟩

theorem contains_sub_eq_true_iff (n h : SourceText) :
    contains_sub n h = true ↔ n <:+: h := by
  simp [contains_sub]

theorem witness_header_infix_block : mod_witness_header <:+: mod_witness_block := by
  exact ⟨[], " \x7b\x7d\n\n".toList, rfl⟩

theorem param_header_infix_block : mod_param_header <:+: mod_param_block := by
  exact ⟨[], " \x7b\x7d\n\n".toList, rfl⟩

/-- Case-by-case value of `add_default_modules_text`. -/
theorem add_default_modules_text_cases (t : SourceText) :
    add_default_modules_text t =
      if contains_sub mod_param_header t then
        (if contains_sub mod_witness_header t then t else mod_witness_block ++ t)
      else
        (if contains_sub mod_witness_header t then mod_param_block ++ t
         else mod_witness_block ++ (mod_param_block ++ t)) := by
  unfold add_default_modules_text
  cases hp : contains_sub mod_param_header t <;>
    cases hw : contains_sub mod_witness_header t <;> simp [hp, hw]

/-- After one `add_default_modules`, both headers are present in the text. -/
theorem add_default_modules_text_contains (t : SourceText) :
    mod_witness_header <:+: add_default_modules_text t ∧
    mod_param_header <:+: add_default_modules_text t := by
  rw [add_default_modules_text_cases]
  cases hp : contains_sub mod_param_header t <;>
    cases hw : contains_sub mod_witness_header t <;> simp only [if_pos, if_neg, Bool.false_eq_true, if_false, if_true]
  · exact ⟨isInfix_append_of_left _ witness_header_infix_block,
      isInfix_append_of_right _ (isInfix_append_of_left _ param_header_infix_block)⟩
  · exact ⟨isInfix_append_of_right _ ((contains_sub_eq_true_iff _ _).mp hw),
      isInfix_append_of_left _ param_header_infix_block⟩
  · exact ⟨isInfix_append_of_left _ witness_header_infix_block,
      isInfix_append_of_right _ ((contains_sub_eq_true_iff _ _).mp hp)⟩
  · exact ⟨(contains_sub_eq_true_iff _ _).mp hw, (contains_sub_eq_true_iff _ _).mp hp⟩

/-- Claim C7: `add_default_modules` is idempotent: after one call both the
`"mod witness"` and `"mod param"` headers are contained in the text, so a
second call inserts nothing and yields text identical to one call. -/
theorem claim_C7 (t : SourceText) :
    contains_sub mod_witness_header (add_default_modules_text t) = true ∧
    contains_sub mod_param_header (add_default_modules_text t) = true ∧
    add_default_modules_text (add_default_modules_text t) = add_default_modules_text t := by
  obtain ⟨hw, hp⟩ := add_default_modules_text_contains t
  have hw2 : contains_sub mod_witness_header (add_default_modules_text t) = true :=
    (contains_sub_eq_true_iff _ _).mpr hw
  have hp2 : contains_sub mod_param_header (add_default_modules_text t) = true :=
    (contains_sub_eq_true_iff _ _).mpr hp
  refine ⟨hw2, hp2, ?_⟩
  rw [add_default_modules_text_cases (add_default_modules_text t), hw2, hp2]
  simp

/-- Claim C8: on a text containing neither header, one `add_default_modules`
prepends both blocks, so both headers become present, the original text is a
suffix of the result, and the length grows by exactly the combined length of
the two inserted blocks; a header already present suppresses the insertion
of the block of that kind. -/
theorem claim_C8 (t : SourceText) :
    ((¬ mod_witness_header <:+: t) → (¬ mod_param_header <:+: t) →
      add_default_modules_text t = mod_witness_block ++ (mod_param_block ++ t) ∧
      mod_witness_header <:+: add_default_modules_text t ∧
      mod_param_header <:+: add_default_modules_text t ∧
      t <:+ add_default_modules_text t ∧
      (add_default_modules_text t).length =
        t.length + (mod_witness_block.length + mod_param_block.length)) ∧
    ((mod_param_header <:+: t) →
      add_default_modules_text t =
        (if contains_sub mod_witness_header t then t else mod_witness_block ++ t)) ∧
    ((mod_witness_header <:+: t) →
      add_default_modules_text t =
        (if contains_sub mod_param_header t then t else mod_param_block ++ t)) := by
  refine ⟨?_, ?_, ?_⟩
  · intro hnw hnp
    have hwb : contains_sub mod_witness_header t = false := by
      simp [contains_sub, hnw]
    have hpb : contains_sub mod_param_header t = false := by
      simp [contains_sub, hnp]
    have heq : add_default_modules_text t = mod_witness_block ++ (mod_param_block ++ t) := by
      rw [add_default_modules_text_cases, hwb, hpb]; simp
    obtain ⟨hw, hp⟩ := add_default_modules_text_contains t
    refine ⟨heq, hw, hp, ?_, ?_⟩
    · rw [heq]
      exact ⟨mod_witness_block ++ mod_param_block, by simp⟩
    · rw [heq]
      simp [List.length_append]
      omega
  · intro hp
    have hpb : contains_sub mod_param_header t = true :=
      (contains_sub_eq_true_iff _ _).mpr hp
    rw [add_default_modules_text_cases, hpb]
    simp
  · intro hw
    have hwb : contains_sub mod_witness_header t = true :=
      (contains_sub_eq_true_iff _ _).mpr hw
    rw [add_default_modules_text_cases, hwb]
    cases hpb : contains_sub mod_param_header t <;> simp [hpb]

/-- Witness for C8: the concrete text `"foo"` contains neither header, and
one call prepends exactly the two blocks. -/
theorem claim_C8_witness :
    (¬ mod_witness_header <:+: "foo".toList) ∧
    (¬ mod_param_header <:+: "foo".toList) ∧
    add_default_modules_text "foo".toList =
      mod_witness_block ++ (mod_param_block ++ "foo".toList) ∧
    (add_default_modules_text "foo".toList).length =
      ("foo".toList).length +
        (mod_witness_block.length + mod_param_block.length) := by
  have h := (claim_C8 "foo".toList).1 (by decide) (by decide)
  exact ⟨by decide, by decide, h.1, h.2.2.2.2⟩

/-- Claim C1: on a fresh state (text equal to the cached snapshot) `cmr` and
`satisfied` return the stored results with no recompute and no state
mutation; along any sequence of `cmr`/`satisfied` calls without an
intervening text change, at most one recompute happens in total and every
call of the same kind returns the identical result. -/
theorem claim_C1 (P : Pipeline) (s : ProgramState P.Cmr P.Satisfied)
    (cs : List ReadCall) :
    (s.text = s.cached_text →
      Program.cmr P s = (s.lazy_cmr, s) ∧
      Program.satisfied P s = (s.lazy_satisfied, s) ∧
      recompute_count s = 0) ∧
    (run_reads P cs s).1 = cs.map (read_result (update_on_read P s)) ∧
    (run_reads P cs s).2.2 ≤ 1 := by
  refine ⟨?_, run_reads_results P cs s, run_reads_count_le_one P cs s⟩
  intro h
  have hf : needs_update s = false := needs_update_eq_false_of_eq s h
  have hupd : update_on_read P s = s := update_on_read_of_fresh P s hf
  exact ⟨by simp [Program.cmr, hupd], by simp [Program.satisfied, hupd],
    by simp [recompute_count, hf]⟩

/-- Witness for C1: a concrete fresh state, read three times. -/
theorem claim_C1_witness :
    toyFresh.text = toyFresh.cached_text ∧
    (Program.cmr toyPipeline toyFresh = (toyFresh.lazy_cmr, toyFresh) ∧
     Program.satisfied toyPipeline toyFresh = (toyFresh.lazy_satisfied, toyFresh) ∧
     recompute_count toyFresh = 0) ∧
    (run_reads toyPipeline [ReadCall.cmrCall, ReadCall.satisfiedCall, ReadCall.cmrCall]
      toyFresh).2.2 ≤ 1 := by
  have h := claim_C1 toyPipeline toyFresh
    [ReadCall.cmrCall, ReadCall.satisfiedCall, ReadCall.cmrCall]
  exact ⟨rfl, h.1 rfl, h.2.2⟩

/-- Claim C2: in a recompute, failure of argument parsing or compilation
stores that error string in both slots; success of compilation with failure
of witness parsing or satisfaction stores `Ok` in the commitment slot and
the error string in the satisfaction slot. -/
theorem claim_C2 (P : Pipeline) (s : ProgramState P.Cmr P.Satisfied)
    (h : needs_update s = true) :
    (∀ e, P.arguments_parse_from_str s.text = Except.error e →
      (update_on_read P s).lazy_cmr = Except.error (P.argsErr_to_string e) ∧
      (update_on_read P s).lazy_satisfied = Except.error (P.argsErr_to_string e)) ∧
    (∀ a m, P.arguments_parse_from_str s.text = Except.ok a →
      P.compiledProgram_new s.text a false = Except.error m →
      (update_on_read P s).lazy_cmr = Except.error m ∧
      (update_on_read P s).lazy_satisfied = Except.error m) ∧
    (∀ a c we, P.arguments_parse_from_str s.text = Except.ok a →
      P.compiledProgram_new s.text a false = Except.ok c →
      P.witnessValues_parse_from_str s.text = Except.error we →
      (update_on_read P s).lazy_cmr = Except.ok (P.cmr (P.commit c)) ∧
      (update_on_read P s).lazy_satisfied = Except.error (P.witErr_to_string we)) ∧
    (∀ a c w m, P.arguments_parse_from_str s.text = Except.ok a →
      P.compiledProgram_new s.text a false = Except.ok c →
      P.witnessValues_parse_from_str s.text = Except.ok w →
      P.satisfy c w = Except.error m →
      (update_on_read P s).lazy_cmr = Except.ok (P.cmr (P.commit c)) ∧
      (update_on_read P s).lazy_satisfied = Except.error m) := by
  rw [update_on_read_of_stale P s h]
  refine ⟨?_, ?_, ?_, ?_⟩
  · intro e ha
    constructor <;>
      simp [pipeline_cmr, pipeline_satisfied, compiledOf, ha,
        Except.mapError, Except.bind, Except.map]
  · intro a m ha hc
    constructor <;>
      simp [pipeline_cmr, pipeline_satisfied, compiledOf, ha, hc,
        Except.mapError, Except.bind, Except.map]
  · intro a c we ha hc hw
    constructor <;>
      simp [pipeline_cmr, pipeline_satisfied, compiledOf, ha, hc, hw,
        Except.mapError, Except.bind, Except.map]
  · intro a c w m ha hc hw hs
    constructor <;>
      simp [pipeline_cmr, pipeline_satisfied, compiledOf, ha, hc, hw, hs,
        Except.mapError, Except.bind, Except.map]

/-- Witness for C2: a concrete stale state whose text compiles but whose
witness parsing fails, leaving `Ok` commitment and `Err` satisfaction. -/
theorem claim_C2_witness :
    needs_update toyStaleWit = true ∧
    toyPipeline.witnessValues_parse_from_str toyStaleWit.text = Except.error () ∧
    (update_on_read toyPipeline toyStaleWit).lazy_cmr = Except.ok 2 ∧
    (update_on_read toyPipeline toyStaleWit).lazy_satisfied =
      Except.error "witness parse error" := by
  have h := (claim_C2 toyPipeline toyStaleWit rfl).2.2.1 () 1 () rfl rfl rfl
  exact ⟨rfl, rfl, h.1, h.2⟩

/-- Claim C4: the recomputed commitment result is a function of the
compilation result alone: it is its image under `commit`/`cmr`, it is `Ok`
whenever compilation succeeds, and it is unchanged under any replacement of
the witness-parsing and satisfaction stages. -/
theorem claim_C4 (P : Pipeline) (s : ProgramState P.Cmr P.Satisfied)
    (h : needs_update s = true) :
    (update_on_read P s).lazy_cmr =
      Except.map (fun x => P.cmr (P.commit x)) (compiledOf P s.text) ∧
    (∀ c, compiledOf P s.text = Except.ok c →
      (update_on_read P s).lazy_cmr = Except.ok (P.cmr (P.commit c))) ∧
    (∀ (pw : SourceText → Except P.WitErr P.Witness) (ws : P.WitErr → String)
      (st : P.Compiled → P.Witness → Except String P.Satisfied),
      (update_on_read
        { P with witnessValues_parse_from_str := pw, witErr_to_string := ws,
                 satisfy := st } s).lazy_cmr =
      (update_on_read P s).lazy_cmr) := by
  rw [update_on_read_of_stale P s h]
  refine ⟨rfl, ?_, ?_⟩
  · intro c hc
    simp [pipeline_cmr, hc, Except.map]
  · intro pw ws st
    rw [update_on_read_of_stale
      { P with witnessValues_parse_from_str := pw, witErr_to_string := ws,
               satisfy := st } s h]
    rfl

/-- Witness for C4: a concrete stale state whose text compiles; its
recomputed commitment is `Ok` even though its witness parsing fails, and it
survives replacing the satisfaction stage. -/
theorem claim_C4_witness :
    needs_update toyStaleWit = true ∧
    compiledOf toyPipeline toyStaleWit.text = Except.ok 1 ∧
    (update_on_read toyPipeline toyStaleWit).lazy_cmr = Except.ok 2 ∧
    (update_on_read
      { toyPipeline with
          witnessValues_parse_from_str := fun _ => Except.ok (),
          witErr_to_string := fun _ => "other witness error",
          satisfy := fun _ _ => Except.error "never satisfied" }
      toyStaleWit).lazy_cmr =
      (update_on_read toyPipeline toyStaleWit).lazy_cmr := by
  have h := claim_C4 toyPipeline toyStaleWit rfl
  exact ⟨rfl, rfl, h.2.1 1 rfl,
    h.2.2 (fun _ => Except.ok ()) (fun _ => "other witness error")
      (fun _ _ => Except.error "never satisfied")⟩

/-- Claim C9: replacing the source text (as the edit handler does) writes
only the `text` field: the cached snapshot and both stored results are
unchanged, and no pipeline is consulted. -/
theorem claim_C9 {C S : Type} (s : ProgramState C S) (v : SourceText) :
    (set_text s v).text = v ∧
    (set_text s v).cached_text = s.cached_text ∧
    (set_text s v).lazy_cmr = s.lazy_cmr ∧
    (set_text s v).lazy_satisfied = s.lazy_satisfied :=
  ⟨rfl, rfl, rfl, rfl⟩

/-- Claim C3: in every reachable state of the `Program` cache, the stored
commitment and satisfaction results were produced together by one recompute
from the one text stored in `cached_text` — or both still hold the
construction-time placeholder `Err("")` against the initial empty snapshot.
In neither case do the two slots derive from two different text versions. -/
theorem claim_C3 (P : Pipeline) (s : ProgramState P.Cmr P.Satisfied)
    (h : Reachable P s) :
    (s.lazy_cmr = pipeline_cmr P s.cached_text ∧
     s.lazy_satisfied = pipeline_satisfied P s.cached_text) ∨
    (s.cached_text = [] ∧ s.lazy_cmr = Except.error "" ∧
     s.lazy_satisfied = Except.error "") := by
  induction h with
  | new t =>
    unfold Program.new
    cases hn : needs_update
        ({ text := t, cached_text := [], lazy_cmr := Except.error "",
           lazy_satisfied := Except.error "" } : ProgramState P.Cmr P.Satisfied) with
    | false =>
      rw [update_on_read_of_fresh _ _ hn]
      exact Or.inr ⟨rfl, rfl, rfl⟩
    | true =>
      rw [update_on_read_of_stale _ _ hn]
      exact Or.inl ⟨rfl, rfl⟩
  | set_text t hr ih => exact ih
  | cmr hr ih =>
    rename_i s0
    have hstate : (Program.cmr P s0).2 = update_on_read P s0 := rfl
    rw [hstate]
    cases hn : needs_update s0 with
    | false => rw [update_on_read_of_fresh _ _ hn]; exact ih
    | true => rw [update_on_read_of_stale _ _ hn]; exact Or.inl ⟨rfl, rfl⟩
  | satisfied hr ih =>
    rename_i s0
    have hstate : (Program.satisfied P s0).2 = update_on_read P s0 := rfl
    rw [hstate]
    cases hn : needs_update s0 with
    | false => rw [update_on_read_of_fresh _ _ hn]; exact ih
    | true => rw [update_on_read_of_stale _ _ hn]; exact Or.inl ⟨rfl, rfl⟩
  | update hr ih =>
    rename_i s0
    cases hn : needs_update s0 with
    | false => rw [update_on_read_of_fresh _ _ hn]; exact ih
    | true => rw [update_on_read_of_stale _ _ hn]; exact Or.inl ⟨rfl, rfl⟩
  | add_default_modules hr ih => exact ih

/-- Witness for C3: the invariant evaluated at a concrete reachable state,
whose slots indeed both come from the recompute on its snapshot. -/
theorem claim_C3_witness :
    ((Program.new toyPipeline "ab".toList).lazy_cmr =
        pipeline_cmr toyPipeline (Program.new toyPipeline "ab".toList).cached_text ∧
      (Program.new toyPipeline "ab".toList).lazy_satisfied =
        pipeline_satisfied toyPipeline
          (Program.new toyPipeline "ab".toList).cached_text) ∨
    ((Program.new toyPipeline "ab".toList).cached_text = [] ∧
      (Program.new toyPipeline "ab".toList).lazy_cmr = Except.error "" ∧
      (Program.new toyPipeline "ab".toList).lazy_satisfied = Except.error "") :=
  claim_C3 toyPipeline (Program.new toyPipeline "ab".toList)
    (Reachable.new "ab".toList)

/-- Claim C5: running the runtime on a program whose satisfied form is
available reports the interpreter outcome: on success the error output is
cleared and success is signalled; on failure the error output is the
interpreter's failure description and failure is signalled; either way the
debug trace is replaced by exactly the lines emitted in this run. -/
theorem claim_C5 (P : Pipeline) {Env : Type} (R : RunnerModel P.Satisfied Env)
    (rt : RuntimeState P.Cmr P.Satisfied) (env : Env) (x : P.Satisfied)
    (hx : (Program.satisfied P rt.program).1 = Except.ok x) :
    (∀ u dbg, R.runner_run x env = (Except.ok u, dbg) →
      (Runtime.run P R rt env).error_output = "" ∧
      (Runtime.run P R rt env).run_succeeded = some true ∧
      (Runtime.run P R rt env).debug_output = String.intercalate "\n" dbg) ∧
    (∀ e dbg, R.runner_run x env = (Except.error e, dbg) →
      (Runtime.run P R rt env).error_output = R.runErr_to_string e ∧
      (Runtime.run P R rt env).run_succeeded = some false ∧
      (Runtime.run P R rt env).debug_output = String.intercalate "\n" dbg) := by
  rcases hps : Program.satisfied P rt.program with ⟨r, prog2⟩
  rw [hps] at hx
  simp only at hx
  subst hx
  constructor
  · intro u dbg hrr
    refine ⟨?_, ?_, ?_⟩ <;> simp [Runtime.run, hps, hrr]
  · intro e dbg hrr
    refine ⟨?_, ?_, ?_⟩ <;> simp [Runtime.run, hps, hrr]

/-- Witness for C5: a concrete successful run producing two debug lines,
overwriting the stale trace and error. -/
theorem claim_C5_witness :
    (Program.satisfied toyPipeline toyRuntime.program).1 = Except.ok 3 ∧
    toyRunner.runner_run 3 () = (Except.ok PUnit.unit, ["line one", "line two"]) ∧
    (Runtime.run toyPipeline toyRunner toyRuntime ()).error_output = "" ∧
    (Runtime.run toyPipeline toyRunner toyRuntime ()).run_succeeded = some true ∧
    (Runtime.run toyPipeline toyRunner toyRuntime ()).debug_output =
      "line one\nline two" := by
  have h := (claim_C5 toyPipeline toyRunner toyRuntime () 3 rfl).1 PUnit.unit
    ["line one", "line two"] rfl
  exact ⟨rfl, rfl, h.1, h.2.1, h.2.2.trans rfl⟩

/-- Claim C10: when the cached satisfied form is an error at the time of
`run`, the run reports that error string, signals failure, leaves the debug
trace cleared, and never consults the interpreter. -/
theorem claim_C10 (P : Pipeline) {Env : Type} (R : RunnerModel P.Satisfied Env)
    (rt : RuntimeState P.Cmr P.Satisfied) (env : Env) (e : String)
    (hfresh : needs_update rt.program = false)
    (he : rt.program.lazy_satisfied = Except.error e) :
    Runtime.run P R rt env =
      { program := rt.program, run_succeeded := some false,
        debug_output := "", error_output := e } ∧
    (∀ (R2 : RunnerModel P.Satisfied Env),
      Runtime.run P R2 rt env = Runtime.run P R rt env) := by
  have hupd : update_on_read P rt.program = rt.program :=
    update_on_read_of_fresh P _ hfresh
  have hsat : Program.satisfied P rt.program = (Except.error e, rt.program) := by
    simp [Program.satisfied, hupd, he]
  constructor
  · simp [Runtime.run, hsat]
  · intro R2
    simp [Runtime.run, hsat]

/-- Witness for C10: a concrete runtime whose cached satisfied form is an
error; the run reports it without running either of two distinct runners. -/
theorem claim_C10_witness :
    needs_update toyRuntimeErr.program = false ∧
    toyRuntimeErr.program.lazy_satisfied = Except.error "witness parse error" ∧
    Runtime.run toyPipeline toyRunner toyRuntimeErr () =
      { program := toyRuntimeErr.program, run_succeeded := some false,
        debug_output := "", error_output := "witness parse error" } ∧
    Runtime.run toyPipeline toyRunnerB toyRuntimeErr () =
      Runtime.run toyPipeline toyRunner toyRuntimeErr () := by
  have h := claim_C10 toyPipeline toyRunner toyRuntimeErr ()
    "witness parse error" rfl rfl
  exact ⟨rfl, rfl, h.1, h.2 toyRunnerB⟩

/-- Claim C6: `execute_jet_with_env` returns `JetFailed` exactly when the
bit machine's execution of the single-jet program fails at runtime, returns
the output on successful execution, and turns every other failure mode
(finalization, machine construction, input loading) into a process abort
rather than a returned result. -/
theorem claim_C6 (M : JetMachineModel) (jet : M.Jet) (input : M.Value)
    (env : M.Env) :
    (execute_jet_with_env M jet input env = JetOutcome.jetFailed ↔
      ∃ p m m2 e, M.finalize_unpruned jet = Except.ok p ∧
        M.for_program p = Except.ok m ∧
        M.machine_input m input = Except.ok m2 ∧
        M.exec m2 p env = Except.error e) ∧
    (∀ p m m2 v, M.finalize_unpruned jet = Except.ok p →
      M.for_program p = Except.ok m →
      M.machine_input m input = Except.ok m2 →
      M.exec m2 p env = Except.ok v →
      execute_jet_with_env M jet input env = JetOutcome.ok v) ∧
    (∀ e, M.finalize_unpruned jet = Except.error e →
      execute_jet_with_env M jet input env =
        JetOutcome.abort "a single jet definitely typechecks") ∧
    (∀ p e, M.finalize_unpruned jet = Except.ok p →
      M.for_program p = Except.error e →
      execute_jet_with_env M jet input env =
        JetOutcome.abort "a single jet is within limits") ∧
    (∀ p m e, M.finalize_unpruned jet = Except.ok p →
      M.for_program p = Except.ok m →
      M.machine_input m input = Except.error e →
      execute_jet_with_env M jet input env =
        JetOutcome.abort "no problem with input") := by
  refine ⟨⟨?_, ?_⟩, ?_, ?_, ?_, ?_⟩
  · intro hres
    cases h1 : M.finalize_unpruned jet with
    | error e1 => simp [execute_jet_with_env, h1] at hres
    | ok p =>
      cases h2 : M.for_program p with
      | error e2 => simp [execute_jet_with_env, h1, h2] at hres
      | ok m =>
        cases h3 : M.machine_input m input with
        | error e3 => simp [execute_jet_with_env, h1, h2, h3] at hres
        | ok m2 =>
          cases h4 : M.exec m2 p env with
          | error e4 =>
            exact ⟨p, m, m2, e4, by simp [h1], by simp [h2], by simp [h3],
              by simp [h4]⟩
          | ok v => simp [execute_jet_with_env, h1, h2, h3, h4] at hres
  · rintro ⟨p, m, m2, e, h1, h2, h3, h4⟩
    simp [execute_jet_with_env, h1, h2, h3, h4]
  · intro p m m2 v h1 h2 h3 h4
    simp [execute_jet_with_env, h1, h2, h3, h4]
  · intro e h1
    simp [execute_jet_with_env, h1]
  · intro p e h1 h2
    simp [execute_jet_with_env, h1, h2]
  · intro p m e h1 h2 h3
    simp [execute_jet_with_env, h1, h2, h3]

/-- Witness for C6: on the concrete machine model, a succeeding jet call
returns its output, a failing execution returns `JetFailed`, and a failing
finalization aborts. -/
theorem claim_C6_witness :
    execute_jet_with_env toyJetMachine 2 5 () = JetOutcome.ok 3 ∧
    execute_jet_with_env toyJetMachine 5 3 () = JetOutcome.jetFailed ∧
    execute_jet_with_env toyJetMachineBroken 5 3 () =
      JetOutcome.abort "a single jet definitely typechecks" := by
  refine ⟨(claim_C6 toyJetMachine 2 5 ()).2.1 2 0 5 3 rfl rfl rfl rfl,
    ((claim_C6 toyJetMachine 5 3 ()).1).mpr ⟨5, 0, 3, (), rfl, rfl, rfl, rfl⟩,
    (claim_C6 toyJetMachineBroken 5 3 ()).2.2.1 () rfl⟩

end SimplicityWebide
